import Mathlib

/-!
Verification of the uveitisDB backend storage layer (`pkg/storage/sqlite.go`).

The Go source is shallowly embedded: pure helpers become Lean functions,
Go `map` values become association lists (Go map iteration order is
unspecified; list order models one iteration order), Go `float64` is
modelled as `ℚ`, Go `interface{}` values as the inductive `GoValue`,
fallible operations return `Except`.  SQL statements executed against the
backing SQLite file are modelled by their documented effect on an explicit
table state.
-/

namespace UveitisDB

/-- A Go `interface{}` value as it flows through the storage layer:
`nil`, `int64`-family integers, `float64` (modelled as `ℚ`),
`bool`, or `string`. -/
inductive GoValue where
  | vnull : GoValue
  | vint (i : ℤ) : GoValue
  | vfloat (q : ℚ) : GoValue
  | vbool (b : Bool) : GoValue
  | vstr (s : String) : GoValue
deriving DecidableEq, Repr

/-- The Unicode white-space class used by Go's `unicode.IsSpace`
(hence by `strings.TrimSpace`). -/
def isGoSpace (c : Char) : Bool :=
  c = ' ' || c = '\t' || c = '\n' || c = (Char.ofNat 11) || c = (Char.ofNat 12) ||
  c = '\r' || c = (Char.ofNat 0x85) || c = (Char.ofNat 0xA0) ||
  c = (Char.ofNat 0x1680) ||
  (0x2000 ≤ c.toNat && c.toNat ≤ 0x200A) ||
  c = (Char.ofNat 0x2028) || c = (Char.ofNat 0x2029) ||
  c = (Char.ofNat 0x202F) || c = (Char.ofNat 0x205F) || c = (Char.ofNat 0x3000)

/-- Go `strings.TrimSpace`: strip leading and trailing white space. -/
def goTrimSpace (s : String) : String :=
  ⟨((s.data.dropWhile isGoSpace).reverse.dropWhile isGoSpace).reverse⟩

/-- ASCII lower-casing of one character. -/
def lowerChar (c : Char) : Char :=
  if 'A' ≤ c ∧ c ≤ 'Z' then Char.ofNat (c.toNat + 32) else c

/-- Go `strings.ToLower`.  (Go lower-cases all of Unicode; the storage
layer only ever compares ASCII or Chinese tokens, for which ASCII
lower-casing is the same function.) -/
def goToLower (s : String) : String := ⟨s.data.map lowerChar⟩

/-- `needle` occurs at the head of `hay`. -/
def leadsWith : List Char → List Char → Bool
  | _, [] => true
  | [], _ :: _ => false
  | h :: hs, n :: ns => h = n && leadsWith hs ns

/-- Go `strings.Contains` on exploded strings. -/
def hasSub (needle : List Char) : List Char → Bool
  | [] => leadsWith [] needle
  | c :: t => leadsWith (c :: t) needle || hasSub needle t

/-- Go `strings.Contains hay needle`. -/
def goContains (hay needle : String) : Bool :=
  hasSub needle.data hay.data

/-- Go `strings.ReplaceAll s "'" "''"` as used to escape default values. -/
def sqlEscape (s : String) : String :=
  ⟨s.data.flatMap (fun c => if c = '\'' then ['\'', '\''] else [c])⟩

/-- `mapType` (sqlite.go): the fixed type-hint → physical SQLite type
table; `""` marks an unrecognized hint. -/
def mapType (hint : String) : String :=
  let t := goToLower hint
  if t = "text" || t = "string" || t = "长文本" || t = "短文本" then "TEXT"
  else if t = "number" || t = "decimal" || t = "数值" || t = "浮点" then "REAL"
  else if t = "integer" || t = "int" || t = "计数" || t = "布尔" then "INTEGER"
  else if t = "boolean" || t = "bool" || t = "是/否" then "INTEGER"
  else if t = "date" || t = "datetime" || t = "日期" || t = "时间" then "TEXT"
  else ""

/-- Go's `int64(f)` conversion on a `float64`: truncation toward zero. -/
def truncQ (q : ℚ) : ℤ := Int.tdiv q.num q.den

/-- Go `strconv.ParseInt(s, 10, 64)`: optional sign, one or more decimal
digits, value within the signed 64-bit range. -/
def parseInt64 (s : String) : Option ℤ :=
  let step : List Char → Option ℤ := fun ds =>
    if ds = [] then none
    else if ds.all Char.isDigit then
      let n : ℕ := ds.foldl (fun acc c => acc * 10 + (c.toNat - '0'.toNat)) 0
      some (n : ℤ)
    else none
  let signed : Option ℤ :=
    match s.data with
    | '+' :: rest => step rest
    | '-' :: rest => (step rest).map Neg.neg
    | cs => step cs
  match signed with
  | none => none
  | some i => if -(2 ^ 63) ≤ i ∧ i ≤ 2 ^ 63 - 1 then some i else none

/-- Errors produced by `convertValue` (the Go code uses `fmt.Errorf`
with fixed Chinese messages; we keep them as tags). -/
inductive ConvError where
  | needInt : ConvError      -- 需要整数
  | needNumber : ConvError   -- 需要数值
  | needBool : ConvError     -- 需要是/否
deriving DecidableEq, Repr

/-- The `integer`/`int`/`计数`/`布尔` branch of `convertValue`. -/
def convInt : GoValue → Except ConvError GoValue
  | .vfloat q => .ok (.vint (truncQ q))
  | .vint i => .ok (.vint i)
  | .vstr v =>
    if goTrimSpace v = "" then .ok .vnull
    else
      match parseInt64 (goTrimSpace v) with
      | some i => .ok (.vint i)
      | none => .error .needInt
  | _ => .error .needInt

/-- A faithful-enough model of Go `strconv.ParseFloat` for decimal
literals: optional sign, digits with optional fractional part and
optional decimal exponent.  (Hex floats and inf/NaN spellings are not
modelled; no claim depends on them.) -/
def parseFloatGo (s : String) : Option ℚ :=
  let digitsVal : List Char → ℕ := fun ds =>
    ds.foldl (fun acc c => acc * 10 + (c.toNat - '0'.toNat)) 0
  let mantissa : List Char → Option ℚ := fun cs =>
    match cs.span Char.isDigit with
    | (intPart, rest) =>
      match rest with
      | [] => if intPart = [] then none else some ((digitsVal intPart : ℤ) : ℚ)
      | '.' :: frac =>
        if frac.all Char.isDigit ∧ (intPart ≠ [] ∨ frac ≠ []) then
          some (((digitsVal intPart : ℤ) : ℚ) +
            (digitsVal frac : ℚ) / ((10 : ℚ) ^ frac.length))
        else none
      | _ => none
  let withExp : List Char → Option ℚ := fun cs =>
    let split := cs.span (fun c => c ≠ 'e' ∧ c ≠ 'E')
    match split.2 with
    | [] => mantissa cs
    | _ :: expPart =>
      let expSigned : Option ℤ :=
        match expPart with
        | '+' :: ds => if ds ≠ [] ∧ ds.all Char.isDigit then some (digitsVal ds : ℤ) else none
        | '-' :: ds => if ds ≠ [] ∧ ds.all Char.isDigit then some (-(digitsVal ds : ℤ)) else none
        | ds => if ds ≠ [] ∧ ds.all Char.isDigit then some (digitsVal ds : ℤ) else none
      match mantissa split.1, expSigned with
      | some m, some e => some (m * (10 : ℚ) ^ e)
      | _, _ => none
  match s.data with
  | '+' :: rest => withExp rest
  | '-' :: rest => (withExp rest).map Neg.neg
  | cs => withExp cs

/-- The `number`/`decimal`/`数值`/`浮点` branch of `convertValue`. -/
def convFloat : GoValue → Except ConvError GoValue
  | .vfloat q => .ok (.vfloat q)
  | .vint i => .ok (.vfloat (i : ℚ))
  | .vstr v =>
    if goTrimSpace v = "" then .ok .vnull
    else
      match parseFloatGo (goTrimSpace v) with
      | some f => .ok (.vfloat f)
      | none => .error .needNumber
  | _ => .error .needNumber

/-- The `boolean`/`bool` branch of `convertValue`. -/
def convBool : GoValue → Except ConvError GoValue
  | .vbool b => .ok (.vbool b)
  | .vstr v =>
    let t := goToLower (goTrimSpace v)
    if t = "" then .ok .vnull
    else if t = "true" || t = "1" || t = "是" || t = "yes" then .ok (.vbool true)
    else if t = "false" || t = "0" || t = "否" || t = "no" then .ok (.vbool false)
    else .error .needBool
  | _ => .error .needBool

/-- Go `fmt.Sprint` on the values the storage layer can see.  (Go prints
float64 with its shortest round-trip decimal form; for the rational model
we use the canonical `ℚ` form — no claim depends on the exact digits.) -/
def goSprint : GoValue → String
  | .vnull => "<nil>"
  | .vint i => toString i
  | .vfloat q => toString q
  | .vbool b => if b then "true" else "false"
  | .vstr s => s

/-- The `date`/`datetime`/`日期`/`时间` branch and the default (text)
branch of `convertValue`, which have identical bodies in the source:
pass strings through (empty after trim → null), stringify anything else. -/
def convText : GoValue → Except ConvError GoValue
  | .vstr v => if goTrimSpace v = "" then .ok .vnull else .ok (.vstr v)
  | other => .ok (.vstr (goSprint other))

/-- `convertValue` (sqlite.go): coerce a raw value to the physical form
implied by a column type hint. -/
def convertValue (typeHint : String) (val : GoValue) : Except ConvError GoValue :=
  if val = .vnull then .ok .vnull
  else
    let t := goToLower typeHint
    if t = "integer" || t = "int" || t = "计数" || t = "布尔" then convInt val
    else if t = "number" || t = "decimal" || t = "数值" || t = "浮点" then convFloat val
    else if t = "boolean" || t = "bool" then convBool val
    else if t = "date" || t = "datetime" || t = "日期" || t = "时间" then convText val
    else convText val

/-! ### Data model -/

/-- `FieldDefinition` (sqlite.go). -/
structure FieldDefinition where
  name : String
  oldName : String := ""
  labels : List String
  typeHint : String
  allowNull : Bool
  dfault : String := ""   -- Go field `Default`
deriving DecidableEq, Repr

/-- `TableSchema` (sqlite.go). -/
structure TableSchema where
  name : String
  displayName : String := ""
  description : String := ""
  fields : List FieldDefinition
deriving DecidableEq, Repr

/-- `QueryOptions` (sqlite.go).  The Go `Filters` map is modelled as an
association list (one iteration order of the map). -/
structure QueryOptions where
  search : String
  filters : List (String × String)
  page : ℤ
  pageSize : ℤ
  sortBy : String
  desc : Bool
deriving DecidableEq, Repr

/-! ### Query/filter builder -/

/-- `buildFilters` (sqlite.go): the WHERE clause text and the bound
parameter list for free-text search plus column-scoped filters. -/
def buildFilters (opts : QueryOptions) (columns : List String) : String × List String :=
  let searchParts : List String :=
    if opts.search = "" then [] else columns.map (fun col => col ++ " LIKE ?")
  let searchParams : List String :=
    if opts.search = "" then [] else columns.map (fun _ => "%" ++ opts.search ++ "%")
  let searchClauses : List String :=
    if searchParts = [] then []
    else ["(" ++ String.intercalate " OR " searchParts ++ ")"]
  let kept := opts.filters.filter (fun kv => columns.contains kv.1)
  let clauses := searchClauses ++ kept.map (fun kv => kv.1 ++ " LIKE ?")
  let params := searchParams ++ kept.map (fun kv => "%" ++ kv.2 ++ "%")
  if clauses = [] then ("", [])
  else ("WHERE " ++ String.intercalate " AND " clauses, params)

/-- The shape of the WHERE clause `buildFilters` emits, as a function of
the search-activity flag, the known columns and the kept filter keys
alone — in particular of no filter or search *value*.  Used to state that
the clause text mentions only identifiers drawn from `columns` and that
values reach the query only as bound parameters. -/
def whereClauseShape (searchActive : Bool) (columns keptKeys : List String) : String :=
  let searchClauses : List String :=
    if searchActive ∧ columns ≠ [] then
      ["(" ++ String.intercalate " OR " (columns.map (fun col => col ++ " LIKE ?")) ++ ")"]
    else []
  let clauses := searchClauses ++ keptKeys.map (fun k => k ++ " LIKE ?")
  if clauses = [] then "" else "WHERE " ++ String.intercalate " AND " clauses

/-! ### Schema-definition operations (pure planning parts)

`CreateTable` validates the schema and builds one `CREATE TABLE` DDL
string before anything is executed; every failure path returns before the
single `ExecContext` call, so an error means no DDL was issued (no
partial table).  `AddColumns` builds one `ALTER TABLE … ADD COLUMN`
statement per field — the source has no type-hint validation there. -/

inductive CreateError where
  | nameRequired : CreateError        -- "table name required"
  | fieldsRequired : CreateError      -- "fields required"
  | unsupportedType (hint : String) : CreateError  -- "unsupported type %s"
deriving DecidableEq, Repr

/-- The column clause `f.Name sqlType [NOT NULL] [DEFAULT '…']` built by
both `CreateTable` and `AddColumns`. -/
def columnClause (f : FieldDefinition) (sqlType : String) : String :=
  let col := f.name ++ " " ++ sqlType
  let col := if f.allowNull then col else col ++ " NOT NULL"
  if f.dfault = "" then col else col ++ " DEFAULT '" ++ sqlEscape f.dfault ++ "'"

/-- `CreateTable` (sqlite.go), up to the DDL it would execute: returns
the `CREATE TABLE` statement, or the error raised before any DDL. -/
def CreateTable (schema : TableSchema) : Except CreateError String :=
  if schema.name = "" then .error .nameRequired
  else if schema.fields = [] then .error .fieldsRequired
  else do
    let cols ← schema.fields.mapM (fun f =>
      let sqlType := mapType f.typeHint
      if sqlType = "" then Except.error (CreateError.unsupportedType f.typeHint)
      else Except.ok (columnClause f sqlType))
    let all := "id INTEGER PRIMARY KEY AUTOINCREMENT" :: cols ++
      ["created_at DATETIME DEFAULT CURRENT_TIMESTAMP",
       "updated_at DATETIME DEFAULT CURRENT_TIMESTAMP"]
    .ok ("CREATE TABLE IF NOT EXISTS " ++ schema.name ++ " (" ++
      String.intercalate "," all ++ ");")

/-- One `ALTER TABLE … ADD COLUMN` statement of `AddColumns` (sqlite.go).
Note: the source applies `mapType` without checking for `""`. -/
def addColumnStmt (table : String) (f : FieldDefinition) : String :=
  let stmt := "ALTER TABLE " ++ table ++ " ADD COLUMN " ++ f.name ++ " " ++ mapType f.typeHint
  let stmt := if f.allowNull then stmt else stmt ++ " NOT NULL"
  if f.dfault = "" then stmt else stmt ++ " DEFAULT '" ++ sqlEscape f.dfault ++ "'"

/-- `AddColumns` (sqlite.go), up to the DDL it executes: the list of
`ALTER TABLE` statements.  The `Except` codomain records that the only
error exits in the source are storage failures from executing these
statements — there is no unsupported-type check. -/
def AddColumnsPlan (table : String) (fields : List FieldDefinition) :
    Except CreateError (List String) :=
  .ok (fields.map (addColumnStmt table))

/-! ### Row-write validation -/

/-- Association-list lookup, modelling `data[name]` on a Go map. -/
def lookupData (data : List (String × GoValue)) (k : String) : Option GoValue :=
  (data.find? (fun kv => kv.1 = k)).map Prod.snd

/-- Errors raised by `prepareDataWithMeta` (sqlite.go): a required field
missing or null (`字段 %s 为必填`), or a wrapped coercion failure
(`字段 %s: …`). -/
inductive PrepError where
  | required (field : String) : PrepError
  | invalid (field : String) (e : ConvError) : PrepError
deriving DecidableEq, Repr

/-- `prepareDataWithMeta` (sqlite.go): walk the declared columns, coerce
and validate the payload value of each, and keep only declared columns.
The Go loop ranges over a map of the declared columns; the list argument
models one iteration order. -/
def prepareDataWithMeta (data : List (String × GoValue)) :
    List FieldDefinition → Bool → Except PrepError (List (String × GoValue))
  | [], _ => .ok []
  | d :: rest, isInsert =>
    match lookupData data d.name with
    | none =>
      if isInsert && !d.allowNull then .error (.required d.name)
      else prepareDataWithMeta data rest isInsert
    | some val =>
      match convertValue d.typeHint val with
      | .error e => .error (.invalid d.name e)
      | .ok .vnull =>
        if !d.allowNull then .error (.required d.name)
        else prepareDataWithMeta data rest isInsert
      | .ok converted => do
        let r ← prepareDataWithMeta data rest isInsert
        .ok ((d.name, converted) :: r)

/-- `InsertRow` (sqlite.go) deletes the housekeeping keys from the
payload before validation. -/
def stripHousekeeping (data : List (String × GoValue)) : List (String × GoValue) :=
  data.filter (fun kv => kv.1 ≠ "id" && kv.1 ≠ "created_at" && kv.1 ≠ "updated_at")

/-- `InsertRow` (sqlite.go) over an explicit list of stored rows: strip
housekeeping keys, validate against the declared columns, and only on
success execute the single INSERT (append the clean row).  An error
return happens before the INSERT, so no row — not even a partial one —
is written. -/
def InsertRow (rows : List (List (String × GoValue))) (meta : List FieldDefinition)
    (data : List (String × GoValue)) :
    Except PrepError (List (List (String × GoValue))) :=
  match prepareDataWithMeta (stripHousekeeping data) meta true with
  | .error e => .error e
  | .ok clean => .ok (rows ++ [clean])

/-! ### Summary -/

/-- Errors of `Summary` (sqlite.go): `字段不存在` and
`字段 %s 不是数值类型，无法统计`. -/
inductive SummaryError where
  | fieldNotFound : SummaryError
  | notNumeric (column : String) : SummaryError
deriving DecidableEq, Repr

/-- The numeric-type test of `Summary` (sqlite.go): the lower-cased
catalog hint must contain one of the substrings
`int`, `数值`, `number`, `float`. -/
def summaryTypeNumeric (lowerHint : String) : Bool :=
  goContains lowerHint "int" || goContains lowerHint "数值" ||
  goContains lowerHint "number" || goContains lowerHint "float"

/-- The statistics `Summary` computes when at least one non-null value is
scanned.  The Go map carries `std = sqrt(variance)`; `ℚ` cannot hold the
square root, so the model stores the variance (the radicand) — key
presence and the other statistics are unchanged. -/
structure SummaryStats where
  sum : ℚ
  average : ℚ
  max : ℚ
  min : ℚ
  variance : ℚ
deriving DecidableEq, Repr

/-- The result map of `Summary`: always a `count` key; the remaining
statistics are present exactly when `stats` is `some`. -/
structure SummaryResult where
  count : ℕ
  stats : Option SummaryStats
deriving DecidableEq, Repr

/-- The per-value fold of `Summary`: sum / min / max over the scanned
non-null values. -/
def summaryFold (nums : List ℚ) (first : ℚ) : ℚ × ℚ × ℚ :=
  nums.foldl (fun acc n =>
    let (sum, mn, mx) := acc
    (sum + n, if n < mn then n else mn, if mx < n then n else mx))
    (0, first, first)

/-- `Summary` (sqlite.go): `cols` is the catalog (`listColumns`) result
for the table and `values` the scanned column values (`NULL` = `none`;
SQLite delivers them through `sql.NullFloat64`, hence `ℚ` in the model). -/
def Summary (cols : List FieldDefinition) (column : String) (values : List (Option ℚ)) :
    Except SummaryError SummaryResult :=
  let typeHint :=
    match cols.find? (fun c => c.name = column) with
    | some c => goToLower c.typeHint
    | none => ""
  if typeHint = "" then .error .fieldNotFound
  else if !summaryTypeNumeric typeHint then .error (.notNumeric column)
  else
    let nums := values.filterMap id
    match nums with
    | [] => .ok ⟨0, none⟩
    | first :: _ =>
      let (sum, mn, mx) := summaryFold nums first
      let avg := sum / (nums.length : ℚ)
      let variance := (nums.map (fun n => (n - avg) ^ 2)).sum / (nums.length : ℚ)
      .ok ⟨nums.length, some ⟨sum, avg, mx, mn, variance⟩⟩

/-! ### Import reconciliation -/

/-- `resolveColumn` (sqlite.go): exact case-insensitive match against a
physical column name, then case-insensitive match against any declared
label; `""` if nothing matches.  `meta` is the `columnMeta` map
(column → labels) as an association list. -/
def resolveColumn (header : String) (fields : List String)
    (meta : List (String × List String)) : String :=
  let h := goTrimSpace header
  let lower := goToLower h
  match fields.find? (fun f => goToLower f = goToLower h) with
  | some f => f
  | none =>
    match meta.find? (fun cl => cl.2.any (fun label => goToLower label = lower)) with
    | some cl => cl.1
    | none => ""

/-- The normalized caller alias map of `buildImportContext` (sqlite.go):
keys lower-cased and trimmed, values trimmed.  (Keys of the Go map are
unique.) -/
def normalizeAliases (aliases : List (String × String)) : List (String × String) :=
  aliases.map (fun kv => (goToLower (goTrimSpace kv.1), goTrimSpace kv.2))

/-- Association lookup on the normalized alias map. -/
def lookupAlias (aliasMap : List (String × String)) (k : String) : Option String :=
  (aliasMap.find? (fun kv => kv.1 = k)).map Prod.snd

inductive ImportError where
  | headerEmpty : ImportError                       -- "header is empty"
  | unknownColumns (columns : List String) : ImportError
deriving DecidableEq, Repr

/-- Header resolution of `buildImportContext` (sqlite.go) for one header
cell: caller alias first, then `resolveColumn`. -/
def resolveHeader (aliasMap : List (String × String)) (fields : List String)
    (meta : List (String × List String)) (h0 : String) : String :=
  let h := goTrimSpace h0
  match lookupAlias aliasMap (goToLower h) with
  | some v => v
  | none => resolveColumn h fields meta

/-- A header cell is unresolved when neither the alias map nor
`resolveColumn` produces a column for it. -/
def headerUnresolved (aliasMap : List (String × String)) (fields : List String)
    (meta : List (String × List String)) (h0 : String) : Bool :=
  let h := goTrimSpace h0
  (lookupAlias aliasMap (goToLower h)).isNone && resolveColumn h fields meta = ""

/-- `buildImportContext` (sqlite.go): resolve every header cell; with
`allowUnknown = false`, collect every unresolved (trimmed) header and
fail with `UnknownColumnsError` listing all of them. -/
def buildImportContext (header : List String) (aliases : List (String × String))
    (fields : List String) (meta : List (String × List String)) (allowUnknown : Bool) :
    Except ImportError (List String) :=
  if header = [] then .error .headerEmpty
  else
    let aliasMap := normalizeAliases aliases
    let mapping := header.map (fun h0 =>
      if headerUnresolved aliasMap fields meta h0 then ""
      else resolveHeader aliasMap fields meta h0)
    let unknown :=
      if allowUnknown then []
      else header.filterMap (fun h0 =>
        if headerUnresolved aliasMap fields meta h0 then some (goTrimSpace h0) else none)
    if unknown = [] then .ok mapping else .error (.unknownColumns unknown)

/-- `isEmptyRow` (sqlite.go): every cell blank after trimming. -/
def isEmptyRow (cells : List String) : Bool :=
  cells.all (fun c => goTrimSpace c = "")

/-- The row map built by `importRecord` (sqlite.go): position-by-position
through the resolved mapping, skipping positions past the record's end
and positions whose mapping is `""`. -/
def importRowMap (mapping : List String) (record : List String) : List (String × GoValue) :=
  (mapping.zip record).filterMap (fun cv =>
    if cv.1 = "" then none else some (cv.1, GoValue.vstr cv.2))

/-- Import failures: a context (header) failure or a per-row validation
failure. -/
inductive CsvError where
  | ctx (e : ImportError) : CsvError
  | rowError (e : PrepError) : CsvError
deriving DecidableEq, Repr

/-- The data loop of `ImportCSV` (sqlite.go): insert each non-blank
record through the ordinary insert path, stopping at the first failure
and reporting the rows inserted before it. -/
def importLoop (meta : List FieldDefinition) (mapping : List String) :
    List (List String) → List (List (String × GoValue)) → ℕ →
    (ℕ × Option CsvError × List (List (String × GoValue)))
  | [], rows, inserted => (inserted, none, rows)
  | record :: rest, rows, inserted =>
    if record = [] || isEmptyRow record then importLoop meta mapping rest rows inserted
    else
      match prepareDataWithMeta (importRowMap mapping record) meta true with
      | .error e => (inserted, some (.rowError e), rows)
      | .ok clean =>
        match InsertRow rows meta clean with
        | .error e => (inserted, some (.rowError e), rows)
        | .ok rows' => importLoop meta mapping rest rows' (inserted + 1)

/-- `ImportCSV` (sqlite.go) after the CSV has been parsed into a header
and records: returns the inserted count, the error (if any) and the
resulting stored rows. -/
def ImportCSV (rows : List (List (String × GoValue))) (metaDefs : List FieldDefinition)
    (fields : List String) (meta : List (String × List String))
    (header : List String) (records : List (List String))
    (aliases : List (String × String)) (allowUnknown : Bool) :
    ℕ × Option CsvError × List (List (String × GoValue)) :=
  match buildImportContext header aliases fields meta allowUnknown with
  | .error e => (0, some (.ctx e), rows)
  | .ok mapping => importLoop metaDefs mapping records rows 0

/-! ### Physical table state and the Query path

A managed table is modelled by its non-housekeeping column list (what
`tableColumns` returns after skipping `id`/`created_at`/`updated_at`)
and its stored rows; a stored row is an association list over
`id :: columns ++ [created_at, updated_at]`. -/

/-- A stored row. -/
abbrev RowT := List (String × GoValue)

/-- A physical managed table: `columns` is the `tableColumns` view
(housekeeping excluded), `rows` the stored rows. -/
structure Table where
  columns : List String
  rows : List RowT
deriving DecidableEq, Repr

/-- The cell of a row in a named column (`NULL` when absent — a SQL row
always yields a value for every selected column). -/
def cellOf (r : RowT) (c : String) : GoValue :=
  (lookupData r c).getD .vnull

/-- The `id` cell of a row (integer primary key). -/
def idOf (r : RowT) : ℤ :=
  match lookupData r "id" with
  | some (.vint i) => i
  | _ => 0

/-- SQLite `cell LIKE '%v%'` with the default (ASCII case-insensitive)
LIKE: NULL never matches, other operands are compared as text by
substring. -/
def likeContains (cell : GoValue) (v : String) : Bool :=
  match cell with
  | .vnull => false
  | c => goContains (goToLower (goSprint c)) (goToLower v)

/-- The row predicate denoted by the WHERE clause and parameters that
`buildFilters` produces: the OR-chain of `col LIKE '%search%'` over the
known columns (absent when the search text is empty or there are no
columns), AND-ed with `k LIKE '%v%'` for every kept filter entry. -/
def rowMatches (opts : QueryOptions) (columns : List String) (r : RowT) : Bool :=
  (opts.search = "" || columns = [] ||
    columns.any (fun c => likeContains (cellOf r c) opts.search)) &&
  (opts.filters.filter (fun kv => columns.contains kv.1)).all
    (fun kv => likeContains (cellOf r kv.1) kv.2)

/-- SQLite cross-type ordering class: NULL < numerics < text. -/
def gvClass : GoValue → ℕ
  | .vnull => 0
  | .vint _ => 1
  | .vfloat _ => 1
  | .vbool _ => 1
  | .vstr _ => 2

/-- Numeric view of a stored value for ordering. -/
def gvNum : GoValue → ℚ
  | .vint i => (i : ℚ)
  | .vfloat q => q
  | .vbool b => if b then 1 else 0
  | _ => 0

/-- SQLite `ORDER BY` comparison on stored values (binary collation for
text). -/
def sqliteLe (a b : GoValue) : Bool :=
  if gvClass a = gvClass b then
    match a, b with
    | .vstr x, .vstr y => x ≤ y
    | _, _ => gvNum a ≤ gvNum b
  else gvClass a ≤ gvClass b

/-- Insert into a list sorted by the (total, boolean) relation `le`. -/
def insertSortedBy {α : Type} (le : α → α → Bool) (x : α) : List α → List α
  | [] => [x]
  | y :: ys => if le x y then x :: y :: ys else y :: insertSortedBy le x ys

/-- Insertion sort by the relation `le` (models the deterministic row
order SQLite produces for the ORDER BY clauses the storage layer emits). -/
def sortListBy {α : Type} (le : α → α → Bool) (l : List α) : List α :=
  l.foldr (insertSortedBy le) []

/-- The ORDER BY relation `Query` uses: `sort_by` honored only when it
names a known column (ascending unless `desc`); otherwise
`ORDER BY id DESC`. -/
def rowLe (opts : QueryOptions) (columns : List String) (a b : RowT) : Bool :=
  if opts.sortBy ≠ "" ∧ columns.contains opts.sortBy then
    if opts.desc then sqliteLe (cellOf b opts.sortBy) (cellOf a opts.sortBy)
    else sqliteLe (cellOf a opts.sortBy) (cellOf b opts.sortBy)
  else decide (idOf b ≤ idOf a)

/-- The default `ORDER BY id DESC` relation of `Query`. -/
def idDescLe (a b : RowT) : Bool := decide (idOf b ≤ idOf a)

/-- The row projection `Query` returns: `created_at`/`updated_at`
stripped, identity key included. -/
def stripTimestamps (r : RowT) : RowT :=
  r.filter (fun kv => kv.1 ≠ "created_at" && kv.1 ≠ "updated_at")

/-- The result of `Query`: the page of rows (timestamps stripped) and
the filtered total. -/
structure QueryResult where
  rows : List RowT
  total : ℕ
deriving DecidableEq, Repr

/-- `Query` (sqlite.go): clamp paging, build the filter once, count the
filtered population with it, then fetch the sorted page with the same
filter, stripping `created_at`/`updated_at` from each returned row. -/
def Query (t : Table) (opts0 : QueryOptions) : QueryResult :=
  let opts := { opts0 with
    page := if opts0.page < 1 then 1 else opts0.page,
    pageSize := if opts0.pageSize ≤ 0 then 20 else opts0.pageSize }
  let matched := t.rows.filter (rowMatches opts t.columns)
  let total := matched.length
  let sorted := sortListBy (rowLe opts t.columns) matched
  let offset := ((opts.page - 1) * opts.pageSize).toNat
  let paged := (sorted.drop offset).take opts.pageSize.toNat
  ⟨paged.map stripTimestamps, total⟩

/-! ### DropColumns rebuild and batch delete -/

/-- SQLite's conversion of a stored value to the TEXT storage class, as
applied when a value is inserted into a column with TEXT affinity:
NULL and text are stored unchanged, numeric values are converted to
their text rendering.  (`ℚ` stands in for float64; SQLite's
shortest-decimal rendering of a non-integral real is approximated by
the canonical rational form — exact for the integer-valued data the
claims exercise.  A Go `bool` binds as SQLite integer 1/0, hence its
rendering here.) -/
def textAffinity : GoValue → GoValue
  | .vint i => .vstr (toString i)
  | .vfloat q => .vstr (if q.den = 1 then toString q.num ++ ".0" else toString q)
  | .vbool b => .vstr (if b then "1" else "0")
  | v => v

/-- The `INSERT INTO tmp (cols) SELECT cols FROM t` copy of one row in
the `DropColumns` rebuild.  The temporary table declares
`id INTEGER PRIMARY KEY` (identity values are integers, unchanged under
INTEGER affinity), every surviving column as `TEXT`
(sqlite.go: `fmt.Sprintf("%s TEXT", c)`) — so each surviving value goes
through the TEXT-affinity conversion — and the timestamps as `DATETIME`
(their values are text and are stripped from query output anyway). -/
def rebuildRow (keep : List String) (r : RowT) : RowT :=
  ("id", cellOf r "id") ::
    (keep.map (fun c => (c, textAffinity (cellOf r c))) ++
     [("created_at", cellOf r "created_at"), ("updated_at", cellOf r "updated_at")])

/-- The physical effect of the `DropColumns` rebuild on one table:
surviving columns only, every row copied via the single
`INSERT … SELECT` into the TEXT-retyped temporary table, applying the
TEXT-affinity conversion to each surviving value. -/
def dropColumnsTable (t : Table) (cols : List String) : Table :=
  let keep := t.columns.filter (fun c => !cols.contains c)
  if keep.length = t.columns.length then t
  else ⟨keep, t.rows.map (rebuildRow keep)⟩

/-- A catalog (`column_meta`) row. -/
structure ColumnMetaRow where
  tableName : String
  field : FieldDefinition
  displayOrder : ℕ
deriving DecidableEq, Repr

/-- The backing store: managed tables plus the column catalog. -/
structure DB where
  tables : List (String × Table)
  columnMeta : List ColumnMetaRow
deriving DecidableEq, Repr

/-- Write statements the modelled operations can execute (reads such as
`PRAGMA table_info` do not modify state and are not listed). -/
inductive WriteStmt where
  | createTmp : WriteStmt
  | copyRows : WriteStmt
  | dropOrig : WriteStmt
  | renameTmp : WriteStmt
  | deleteColumnMeta : WriteStmt
  | deleteRows : WriteStmt
deriving DecidableEq, Repr

/-- Find a managed table by name. -/
def lookupTable (db : DB) (name : String) : Option Table :=
  (db.tables.find? (fun p => p.1 = name)).map Prod.snd

/-- `DropColumns` (sqlite.go) over the whole store, also returning the
write statements it executes: early return on an empty list; early
return when no physically present non-housekeeping column is named
(`len(keep) == len(current)`); otherwise the transactional rebuild
followed by the catalog cleanup. -/
def DropColumnsDB (db : DB) (table : String) (cols : List String) :
    DB × List WriteStmt :=
  if cols = [] then (db, [])
  else
    let current := ((lookupTable db table).map Table.columns).getD []
    let keep := current.filter (fun c => !cols.contains c)
    if keep.length = current.length then (db, [])
    else
      ({ tables := db.tables.map (fun p =>
           if p.1 = table then (p.1, dropColumnsTable p.2 cols) else p),
         columnMeta := db.columnMeta.filter (fun r =>
           !(r.tableName = table && cols.contains r.field.name)) },
       [.createTmp, .copyRows, .dropOrig, .renameTmp, .deleteColumnMeta])

/-- `DeleteRows` (sqlite.go): early success on an empty id set, else one
`DELETE … WHERE id IN (…)`. -/
def DeleteRowsDB (db : DB) (table : String) (ids : List ℤ) :
    DB × List WriteStmt :=
  if ids = [] then (db, [])
  else
    ({ db with tables := db.tables.map (fun p =>
         if p.1 = table then
           (p.1, { p.2 with rows := p.2.rows.filter (fun r => !ids.contains (idOf r)) })
         else p) },
     [.deleteRows])

/-- Query options that select everything: no search, no filters, first
page with capacity `n`, default sort. -/
def allOpts (n : ℤ) : QueryOptions := ⟨"", [], 1, n, "", false⟩

/-- A stored row is well formed for a table when it carries an integer
identity key, a value for every declared column, and both timestamps. -/
def goodRow (t : Table) (r : RowT) : Bool :=
  (match lookupData r "id" with
   | some (.vint _) => true
   | _ => false) &&
  t.columns.all (fun col => (lookupData r col).isSome) &&
  (lookupData r "created_at").isSome && (lookupData r "updated_at").isSome

/-- A well-formed physical table: distinct non-housekeeping column
names and well-formed rows (every SQL table the storage layer creates
satisfies this by construction). -/
def wellFormed (t : Table) : Prop :=
  t.columns.Nodup ∧ "id" ∉ t.columns ∧ "created_at" ∉ t.columns ∧
  "updated_at" ∉ t.columns ∧ ∀ r ∈ t.rows, goodRow t r = true

/-- A sample row with identity `i` for the paging scenario. -/
def sampleRow (i : ℤ) : RowT :=
  [("id", .vint i), ("val", .vint (100 + i)),
   ("created_at", .vstr "ts"), ("updated_at", .vstr "ts")]

/-- A sample table of 25 rows with ids 1..25. -/
def sampleTable25 : Table :=
  ⟨["val"], (List.range 25).map (fun i => sampleRow ((i : ℤ) + 1))⟩

/-! ## Theorems -/

deriving instance DecidableEq for Except

/-- **C9**.  For every supported type hint (indeed for every hint at
all, since the default branch is the text behavior), coercing a null
input or an input whose string is empty after trimming yields storage
null and never an error; `convertValue` takes no nullability flag, so
nullability can only be enforced by the layer above it. -/
theorem claim9 (hint : String) (s : String) :
    convertValue hint GoValue.vnull = .ok .vnull ∧
    (goTrimSpace s = "" → convertValue hint (.vstr s) = .ok .vnull) := by
  constructor
  · simp [convertValue]
  · intro hs
    unfold convertValue
    simp only [reduceCtorEq, if_false]
    split_ifs <;>
      simp [convInt, convFloat, convBool, convText, hs, goToLower]

/-- Witness for C9 at hint `"date"` and the all-blank string. -/
theorem claim9_witness :
    goTrimSpace "  " = "" ∧ convertValue "date" (.vstr "  ") = .ok .vnull :=
  ⟨by decide, (claim9 "date" "  ").2 (by decide)⟩

/-- **C4 counterexample**.  Under the integer hint the coercion accepts
a float-typed value that is *not* in integer form — `1.5` is truncated
to `1` instead of failing with an invalid-value error. -/
theorem claim4_cex :
    convertValue "integer" (GoValue.vfloat (3 / 2)) = .ok (.vint 1) := by
  have h : (3 / 2 : ℚ) = (⟨3, 2, by decide, by decide⟩ : ℚ) :=
    Rat.ext (by norm_num) (by norm_num)
  rw [h]; decide

/-- **C4 (amended)**.  Under an integer-category hint the coercion
accepts integer-typed values unchanged; accepts any float-typed value,
truncating it toward zero; accepts a string that parses as a base-10
64-bit integer after trimming (empty/whitespace-only strings yielding
null); and fails with the invalid-value error on every other non-null
input (e.g. booleans). -/
theorem claim4 (hint : String)
    (hh : goToLower hint = "integer" ∨ goToLower hint = "int" ∨
          goToLower hint = "计数" ∨ goToLower hint = "布尔") :
    (∀ i : ℤ, convertValue hint (.vint i) = .ok (.vint i)) ∧
    (∀ q : ℚ, convertValue hint (.vfloat q) = .ok (.vint (truncQ q))) ∧
    (∀ s, goTrimSpace s = "" → convertValue hint (.vstr s) = .ok .vnull) ∧
    (∀ s i, goTrimSpace s ≠ "" → parseInt64 (goTrimSpace s) = some i →
       convertValue hint (.vstr s) = .ok (.vint i)) ∧
    (∀ s, goTrimSpace s ≠ "" → parseInt64 (goTrimSpace s) = none →
       convertValue hint (.vstr s) = .error .needInt) ∧
    (∀ b, convertValue hint (.vbool b) = .error .needInt) := by
  have hcond : (goToLower hint = "integer" || goToLower hint = "int" ||
      goToLower hint = "计数" || goToLower hint = "布尔") = true := by
    rcases hh with h | h | h | h <;> simp [h]
  refine ⟨?_, ?_, ?_, ?_, ?_, ?_⟩
  · intro i; simp [convertValue, hcond, convInt]
  · intro q; simp [convertValue, hcond, convInt]
  · intro s hs; simp [convertValue, hcond, convInt, hs]
  · intro s i hs hp; simp [convertValue, hcond, convInt, hs, hp]
  · intro s hs hp; simp [convertValue, hcond, convInt, hs, hp]
  · intro b; simp [convertValue, hcond, convInt]

/-- Witness for C4 at hint `"integer"`: integer pass-through, blank
string to null, `" 42 "` parsed, `"4.2"` rejected, boolean rejected. -/
theorem claim4_witness :
    convertValue "integer" (.vint 7) = .ok (.vint 7) ∧
    convertValue "integer" (.vstr " ") = .ok .vnull ∧
    convertValue "integer" (.vstr " 42 ") = .ok (.vint 42) ∧
    convertValue "integer" (.vstr "4.2") = .error .needInt ∧
    convertValue "integer" (.vbool true) = .error .needInt := by
  have h := claim4 "integer" (Or.inl (by decide))
  exact ⟨h.1 7, h.2.2.1 " " (by decide),
    h.2.2.2.1 " 42 " 42 (by decide) (by decide),
    h.2.2.2.2.1 "4.2" (by decide) (by decide),
    h.2.2.2.2.2 true⟩

/-- **C1**.  The WHERE clause `buildFilters` emits has the shape
`whereClauseShape`, a function of the search-activity flag, the known
columns and the *kept* filter keys only: every identifier in it is drawn
from `known_columns`, and no search or filter value influences the
clause text.  The bound-parameter list is exactly the search value
repeated per column followed by the kept filter values, each wrapped in
`%…%`.  Every kept filter key is a known column, and dropping the
unknown filter entries from the options leaves the result unchanged
(they are silently ignored, never an error — the builder is total). -/
theorem claim1 (opts : QueryOptions) (columns : List String) :
    (opts.search = "" →
      (buildFilters opts columns).1 =
        whereClauseShape false columns
          ((opts.filters.filter (fun kv => columns.contains kv.1)).map Prod.fst) ∧
      (buildFilters opts columns).2 =
        (opts.filters.filter (fun kv => columns.contains kv.1)).map
          (fun kv => "%" ++ kv.2 ++ "%")) ∧
    (opts.search ≠ "" →
      (buildFilters opts columns).1 =
        whereClauseShape true columns
          ((opts.filters.filter (fun kv => columns.contains kv.1)).map Prod.fst) ∧
      (buildFilters opts columns).2 =
        columns.map (fun _ => "%" ++ opts.search ++ "%") ++
        (opts.filters.filter (fun kv => columns.contains kv.1)).map
          (fun kv => "%" ++ kv.2 ++ "%")) ∧
    (∀ k ∈ (opts.filters.filter (fun kv => columns.contains kv.1)).map Prod.fst,
       k ∈ columns) ∧
    buildFilters opts columns =
      buildFilters
        { opts with filters := opts.filters.filter (fun kv => columns.contains kv.1) }
        columns := by
  obtain ⟨search, filters, page, pageSize, sortBy, desc⟩ := opts
  have hkept : (filters.filter (fun kv => columns.contains kv.1)).filter
      (fun kv => columns.contains kv.1) =
      filters.filter (fun kv => columns.contains kv.1) :=
    List.filter_eq_self.mpr (fun a ha => (List.mem_filter.mp ha).2)
  refine ⟨?_, ?_, ?_, ?_⟩
  · intro hs
    subst hs
    constructor
    · simp only [buildFilters, whereClauseShape, if_true, if_false, eq_self_iff_true,
        List.nil_append, List.map_map, Function.comp_def, Bool.false_eq_true, false_and]
      by_cases h : (filters.filter (fun kv => columns.contains kv.1)).map
          (fun kv => kv.1 ++ " LIKE ?") = []
      · rw [if_pos h, if_pos h]
      · rw [if_neg h, if_neg h]
    · simp only [buildFilters, if_true, if_false, eq_self_iff_true, List.nil_append]
      by_cases h : (filters.filter (fun kv => columns.contains kv.1)).map
          (fun kv => kv.1 ++ " LIKE ?") = []
      · rw [if_pos h, List.map_eq_nil_iff.mp h]
        rfl
      · rw [if_neg h]
  · intro hs
    cases columns with
    | nil =>
      constructor
      · simp only [buildFilters, whereClauseShape, hs, if_true, if_false,
          eq_self_iff_true, List.nil_append, List.map_map, Function.comp_def,
          List.map_nil, ne_eq, not_true_eq_false, and_false]
        by_cases h : (filters.filter (fun kv => List.contains [] kv.1)).map
            (fun kv => kv.1 ++ " LIKE ?") = []
        · rw [if_pos h, if_pos h]
        · rw [if_neg h, if_neg h]
      · simp only [buildFilters, hs, if_true, if_false, eq_self_iff_true,
          List.nil_append, List.map_nil]
        by_cases h : (filters.filter (fun kv => List.contains [] kv.1)).map
            (fun kv => kv.1 ++ " LIKE ?") = []
        · rw [if_pos h, List.map_eq_nil_iff.mp h]
          rfl
        · rw [if_neg h]
    | cons c cs =>
      constructor <;>
        · simp only [buildFilters, whereClauseShape, hs, if_true, if_false,
            eq_self_iff_true, List.nil_append, List.map_map, Function.comp_def,
            List.map_cons, ne_eq, reduceCtorEq, not_false_eq_true, and_true, true_and]
          rfl
  · intro k hk
    obtain ⟨kv, hkv, rfl⟩ := List.mem_map.mp hk
    have := (List.mem_filter.mp hkv).2
    simpa using this
  · simp only [buildFilters, hkept]

/-- Witness for C1: a search plus one known and one unknown filter key. -/
theorem claim1_witness :
    buildFilters ⟨"ab", [("good", "v1"), ("evil", "v2")], 1, 10, "", false⟩
        ["good", "name"] =
      ("WHERE (good LIKE ? OR name LIKE ?) AND good LIKE ?",
       ["%ab%", "%ab%", "%v1%"]) ∧
    buildFilters ⟨"ab", [("good", "v1"), ("evil", "v2")], 1, 10, "", false⟩
        ["good", "name"] =
      buildFilters ⟨"ab", [("good", "v1")], 1, 10, "", false⟩ ["good", "name"] := by
  constructor
  · decide
  · have h := (claim1 ⟨"ab", [("good", "v1"), ("evil", "v2")], 1, 10, "", false⟩
      ["good", "name"]).2.2.2
    simpa using h

/-- **C2 counterexample**.  `decimal` is a numeric category (`mapType`
sends it to `REAL`), yet `Summary` rejects a `decimal` column with the
unsupported-column-type error, because its numeric test only looks for
the substrings `int`/`数值`/`number`/`float` in the hint. -/
theorem claim2_cex :
    mapType "decimal" = "REAL" ∧
    Summary [⟨"x", "", [], "decimal", true, ""⟩] "x" [some 1] =
      .error (.notNumeric "x") := by
  constructor <;> decide

/-- **C2 (amended)**.  `Summary` succeeds exactly on columns whose
lower-cased catalog hint contains one of the substrings `int`, `数值`,
`number`, `float` (so `integer`, `int`, `number`, `数值` pass, while the
numeric-category hints `decimal`, `浮点`, `计数`, `布尔` are rejected
with the unsupported-column-type error); on a column it accepts whose
scanned values contain zero non-null entries it returns exactly
`{count: 0}`, omitting the other statistics. -/
theorem claim2 (cols : List FieldDefinition) (column : String)
    (values : List (Option ℚ)) (c : FieldDefinition)
    (hfind : cols.find? (fun f => f.name = column) = some c)
    (hne : goToLower c.typeHint ≠ "") :
    (summaryTypeNumeric (goToLower c.typeHint) = false →
       Summary cols column values = .error (.notNumeric column)) ∧
    (summaryTypeNumeric (goToLower c.typeHint) = true →
       (values.filterMap id = [] → Summary cols column values = .ok ⟨0, none⟩) ∧
       (∀ n ns, values.filterMap id = n :: ns →
          ∃ st, Summary cols column values = .ok ⟨(n :: ns).length, some st⟩)) := by
  constructor
  · intro hnum
    simp only [Summary, hfind, hnum]
    rw [if_neg hne]
    rfl
  · intro hnum
    constructor
    · intro hempty
      simp only [Summary, hfind, hnum, hempty]
      rw [if_neg hne]
      rfl
    · intro n ns hcons
      simp only [Summary, hfind, hnum, hcons]
      rw [if_neg hne]
      rcases hsf : summaryFold (n :: ns) n with ⟨s, mn, mx⟩
      simp only [hsf]
      exact ⟨_, rfl⟩

/-- Witness for C2: a `number` column over all-null values reports
`{count: 0}`, and the same column over `[1,2,3,4]` reports count 4 with
the full statistics; a `decimal` column is rejected. -/
theorem claim2_witness :
    Summary [⟨"x", "", [], "number", true, ""⟩] "x" [none, none] = .ok ⟨0, none⟩ ∧
    (∃ st, Summary [⟨"x", "", [], "number", true, ""⟩] "x"
      [some 1, some 2, some 3, some 4] = .ok ⟨4, some st⟩) := by
  constructor
  · exact ((claim2 [⟨"x", "", [], "number", true, ""⟩] "x" [none, none]
      ⟨"x", "", [], "number", true, ""⟩ (by decide) (by decide)).2 (by decide)).1
      (by decide)
  · exact ((claim2 [⟨"x", "", [], "number", true, ""⟩] "x"
      [some 1, some 2, some 3, some 4]
      ⟨"x", "", [], "number", true, ""⟩ (by decide) (by decide)).2 (by decide)).2
      1 [2, 3, 4] (by decide)

/-- **C3 counterexample**.  `AddColumns` performs no type-hint check:
for the unrecognized hint `mystery` it does not fail with an
unsupported-type error but plans the `ALTER TABLE` statement with an
empty physical type. -/
theorem claim3_cex :
    mapType "mystery" = "" ∧
    AddColumnsPlan "t" [⟨"c", "", [], "mystery", true, ""⟩] =
      .ok ["ALTER TABLE t ADD COLUMN c "] := by
  constructor <;> decide

/-- **C3 (amended)**.  `CreateTable` rejects any schema containing a
field with an unrecognized type hint with an unsupported-type error
before issuing any DDL, so no partial table is created; `AddColumns`,
however, performs no hint validation: it never returns an
unsupported-type error and instead issues an
`ALTER TABLE … ADD COLUMN name ` statement with an empty physical type
for an unrecognized hint.  An unrecognized hint is still never first
surfaced at row-write time (`convertValue` treats it as text and never
errors on it for string input). -/
theorem claim3 :
    (∀ schema : TableSchema, schema.name ≠ "" → schema.fields ≠ [] →
       (∃ f ∈ schema.fields, mapType f.typeHint = "") →
       ∃ hint, CreateTable schema = .error (.unsupportedType hint) ∧
         mapType hint = "") ∧
    (∀ table fields e, AddColumnsPlan table fields ≠ .error e) ∧
    (∀ table (f : FieldDefinition), mapType f.typeHint = "" →
       AddColumnsPlan table [f] = .ok [addColumnStmt table f]) := by
  refine ⟨?_, ?_, ?_⟩
  · intro schema hname hfields hbad
    simp only [CreateTable]
    rw [if_neg hname, if_neg hfields]
    obtain ⟨f, hf, hbadf⟩ := hbad
    have key : ∀ fs : List FieldDefinition, (∃ g ∈ fs, mapType g.typeHint = "") →
        ∃ hint, (fs.mapM (fun g =>
          let sqlType := mapType g.typeHint
          if sqlType = "" then Except.error (CreateError.unsupportedType g.typeHint)
          else Except.ok (columnClause g sqlType)) :
            Except CreateError (List String)) = .error (.unsupportedType hint) ∧
          mapType hint = "" := by
      intro fs hfs
      induction fs with
      | nil => simp at hfs
      | cons g gs ih =>
        by_cases hg : mapType g.typeHint = ""
        · refine ⟨g.typeHint, ?_, hg⟩
          simp only [List.mapM_cons]
          rw [if_pos hg]
          rfl
        · obtain ⟨w, hw, hwbad⟩ := hfs
          rcases List.mem_cons.mp hw with rfl | hw'
          · exact absurd hwbad hg
          · obtain ⟨hint, hres, hbad2⟩ := ih ⟨w, hw', hwbad⟩
            refine ⟨hint, ?_, hbad2⟩
            simp only [List.mapM_cons]
            rw [if_neg hg, hres]
            rfl
    obtain ⟨hint, hres, hbad2⟩ := key schema.fields ⟨f, hf, hbadf⟩
    refine ⟨hint, ?_, hbad2⟩
    rw [hres]
    rfl
  · intro table fields e
    simp [AddColumnsPlan]
  · intro table f _
    rfl

/-- Witness for C3: a create call with one good and one unrecognized
field fails whole with the unsupported-type error. -/
theorem claim3_witness :
    ∃ hint,
      CreateTable ⟨"t", "", "", [⟨"a", "", [], "text", true, ""⟩,
        ⟨"c", "", [], "mystery", true, ""⟩]⟩ =
        .error (.unsupportedType hint) ∧ mapType hint = "" :=
  claim3.1 ⟨"t", "", "", [⟨"a", "", [], "text", true, ""⟩,
    ⟨"c", "", [], "mystery", true, ""⟩]⟩ (by decide) (by decide)
    ⟨⟨"c", "", [], "mystery", true, ""⟩, by decide, by decide⟩

/-- Every key of a successfully prepared row names a declared column. -/
lemma prepare_keys (data : List (String × GoValue)) :
    ∀ (meta : List FieldDefinition) (b : Bool) clean,
      prepareDataWithMeta data meta b = .ok clean →
      ∀ kv ∈ clean, ∃ d ∈ meta, d.name = kv.1 := by
  intro meta
  induction meta with
  | nil =>
    intro b clean h kv hkv
    simp only [prepareDataWithMeta] at h
    cases h
    simp at hkv
  | cons d rest ih =>
    intro b clean h kv hkv
    simp only [prepareDataWithMeta] at h
    rcases hl : lookupData data d.name with _ | val
    · simp only [hl] at h
      by_cases hb : (b && !d.allowNull) = true
      · rw [if_pos hb] at h
        cases h
      · rw [if_neg hb] at h
        obtain ⟨d', hd', hn⟩ := ih b clean h kv hkv
        exact ⟨d', List.mem_cons_of_mem d hd', hn⟩
    · simp only [hl] at h
      rcases hc : convertValue d.typeHint val with e | w
      · simp only [hc] at h
        cases h
      · simp only [hc] at h
        cases w with
        | vnull =>
          by_cases hA : d.allowNull
          · rw [if_neg (by simp [hA])] at h
            obtain ⟨d', hd', hn⟩ := ih b clean h kv hkv
            exact ⟨d', List.mem_cons_of_mem d hd', hn⟩
          · rw [if_pos (by simp [hA])] at h
            cases h
        | vint i =>
          rcases hr : prepareDataWithMeta data rest b with e | r
          · rw [hr] at h; cases h
          · rw [hr] at h
            cases h
            rcases List.mem_cons.mp hkv with rfl | hkv'
            · exact ⟨d, List.mem_cons_self d rest, rfl⟩
            · obtain ⟨d', hd', hn⟩ := ih b r hr kv hkv'
              exact ⟨d', List.mem_cons_of_mem d hd', hn⟩
        | vfloat q =>
          rcases hr : prepareDataWithMeta data rest b with e | r
          · rw [hr] at h; cases h
          · rw [hr] at h
            cases h
            rcases List.mem_cons.mp hkv with rfl | hkv'
            · exact ⟨d, List.mem_cons_self d rest, rfl⟩
            · obtain ⟨d', hd', hn⟩ := ih b r hr kv hkv'
              exact ⟨d', List.mem_cons_of_mem d hd', hn⟩
        | vbool bb =>
          rcases hr : prepareDataWithMeta data rest b with e | r
          · rw [hr] at h; cases h
          · rw [hr] at h
            cases h
            rcases List.mem_cons.mp hkv with rfl | hkv'
            · exact ⟨d, List.mem_cons_self d rest, rfl⟩
            · obtain ⟨d', hd', hn⟩ := ih b r hr kv hkv'
              exact ⟨d', List.mem_cons_of_mem d hd', hn⟩
        | vstr s =>
          rcases hr : prepareDataWithMeta data rest b with e | r
          · rw [hr] at h; cases h
          · rw [hr] at h
            cases h
            rcases List.mem_cons.mp hkv with rfl | hkv'
            · exact ⟨d, List.mem_cons_self d rest, rfl⟩
            · obtain ⟨d', hd', hn⟩ := ih b r hr kv hkv'
              exact ⟨d', List.mem_cons_of_mem d hd', hn⟩

/-- On an insert, a required column that is missing or coerces to null
makes validation fail with a missing-required-field error, as long as no
other column fails coercion first. -/
lemma prepare_required (data : List (String × GoValue)) :
    ∀ meta : List FieldDefinition,
      (∃ d ∈ meta, d.allowNull = false ∧
        (lookupData data d.name = none ∨
         ∃ v, lookupData data d.name = some v ∧
           convertValue d.typeHint v = .ok .vnull)) →
      (∀ d ∈ meta, ∀ v, lookupData data d.name = some v →
        ∃ w, convertValue d.typeHint v = .ok w) →
      ∃ f, prepareDataWithMeta data meta true = .error (.required f) := by
  intro meta
  induction meta with
  | nil =>
    intro h1 _
    simp at h1
  | cons d rest ih =>
    intro h1 h2
    obtain ⟨d0, hd0, hAn, hcase⟩ := h1
    rcases hl : lookupData data d.name with _ | val
    · by_cases hA : d.allowNull
      · have hrest : ∃ d' ∈ rest, d'.allowNull = false ∧
            (lookupData data d'.name = none ∨
             ∃ v, lookupData data d'.name = some v ∧
               convertValue d'.typeHint v = .ok .vnull) := by
          rcases List.mem_cons.mp hd0 with rfl | hmem
          · rw [hA] at hAn; cases hAn
          · exact ⟨d0, hmem, hAn, hcase⟩
        obtain ⟨f, hf⟩ := ih hrest
          (fun d' hd' v hv => h2 d' (List.mem_cons_of_mem d hd') v hv)
        refine ⟨f, ?_⟩
        simp only [prepareDataWithMeta, hl]
        rw [if_neg (by simp [hA])]
        exact hf
      · refine ⟨d.name, ?_⟩
        simp only [prepareDataWithMeta, hl]
        rw [if_pos (by simp [hA])]
    · obtain ⟨w, hw⟩ := h2 d (List.mem_cons_self d rest) val hl
      cases w with
      | vnull =>
        by_cases hA : d.allowNull
        · have hrest : ∃ d' ∈ rest, d'.allowNull = false ∧
              (lookupData data d'.name = none ∨
               ∃ v, lookupData data d'.name = some v ∧
                 convertValue d'.typeHint v = .ok .vnull) := by
            rcases List.mem_cons.mp hd0 with rfl | hmem
            · rw [hA] at hAn; cases hAn
            · exact ⟨d0, hmem, hAn, hcase⟩
          obtain ⟨f, hf⟩ := ih hrest
            (fun d' hd' v hv => h2 d' (List.mem_cons_of_mem d hd') v hv)
          refine ⟨f, ?_⟩
          simp only [prepareDataWithMeta, hl, hw]
          rw [if_neg (by simp [hA])]
          exact hf
        · refine ⟨d.name, ?_⟩
          simp only [prepareDataWithMeta, hl, hw]
          rw [if_pos (by simp [hA])]
      | vint i =>
        have hrest : ∃ d' ∈ rest, d'.allowNull = false ∧
            (lookupData data d'.name = none ∨
             ∃ v, lookupData data d'.name = some v ∧
               convertValue d'.typeHint v = .ok .vnull) := by
          rcases List.mem_cons.mp hd0 with rfl | hmem
          · rcases hcase with hnone | ⟨v, hv, hvnull⟩
            · rw [hl] at hnone; cases hnone
            · rw [hl] at hv
              cases hv
              rw [hw] at hvnull
              cases hvnull
          · exact ⟨d0, hmem, hAn, hcase⟩
        obtain ⟨f, hf⟩ := ih hrest
          (fun d' hd' v hv => h2 d' (List.mem_cons_of_mem d hd') v hv)
        refine ⟨f, ?_⟩
        simp only [prepareDataWithMeta, hl, hw, hf]
        rfl
      | vfloat q =>
        have hrest : ∃ d' ∈ rest, d'.allowNull = false ∧
            (lookupData data d'.name = none ∨
             ∃ v, lookupData data d'.name = some v ∧
               convertValue d'.typeHint v = .ok .vnull) := by
          rcases List.mem_cons.mp hd0 with rfl | hmem
          · rcases hcase with hnone | ⟨v, hv, hvnull⟩
            · rw [hl] at hnone; cases hnone
            · rw [hl] at hv
              cases hv
              rw [hw] at hvnull
              cases hvnull
          · exact ⟨d0, hmem, hAn, hcase⟩
        obtain ⟨f, hf⟩ := ih hrest
          (fun d' hd' v hv => h2 d' (List.mem_cons_of_mem d hd') v hv)
        refine ⟨f, ?_⟩
        simp only [prepareDataWithMeta, hl, hw, hf]
        rfl
      | vbool bb =>
        have hrest : ∃ d' ∈ rest, d'.allowNull = false ∧
            (lookupData data d'.name = none ∨
             ∃ v, lookupData data d'.name = some v ∧
               convertValue d'.typeHint v = .ok .vnull) := by
          rcases List.mem_cons.mp hd0 with rfl | hmem
          · rcases hcase with hnone | ⟨v, hv, hvnull⟩
            · rw [hl] at hnone; cases hnone
            · rw [hl] at hv
              cases hv
              rw [hw] at hvnull
              cases hvnull
          · exact ⟨d0, hmem, hAn, hcase⟩
        obtain ⟨f, hf⟩ := ih hrest
          (fun d' hd' v hv => h2 d' (List.mem_cons_of_mem d hd') v hv)
        refine ⟨f, ?_⟩
        simp only [prepareDataWithMeta, hl, hw, hf]
        rfl
      | vstr s =>
        have hrest : ∃ d' ∈ rest, d'.allowNull = false ∧
            (lookupData data d'.name = none ∨
             ∃ v, lookupData data d'.name = some v ∧
               convertValue d'.typeHint v = .ok .vnull) := by
          rcases List.mem_cons.mp hd0 with rfl | hmem
          · rcases hcase with hnone | ⟨v, hv, hvnull⟩
            · rw [hl] at hnone; cases hnone
            · rw [hl] at hv
              cases hv
              rw [hw] at hvnull
              cases hvnull
          · exact ⟨d0, hmem, hAn, hcase⟩
        obtain ⟨f, hf⟩ := ih hrest
          (fun d' hd' v hv => h2 d' (List.mem_cons_of_mem d hd') v hv)
        refine ⟨f, ?_⟩
        simp only [prepareDataWithMeta, hl, hw, hf]
        rfl

/-- **C5**.  For every insert payload: when some declared not-nullable
column is missing from the (housekeeping-stripped) payload or coerces to
null — and no other column fails coercion, so that failure is the one
surfaced — the insert fails with a missing-required-field error, and
since the failure happens before the INSERT no row at all is written
(`InsertRow` only appends on `.ok`); and on any successful insert the
written row's keys all name declared columns, so payload keys that match
no declared column are never stored. -/
theorem claim5 (rows : List (List (String × GoValue)))
    (meta : List FieldDefinition) (data : List (String × GoValue))
    (h1 : ∃ d ∈ meta, d.allowNull = false ∧
       (lookupData (stripHousekeeping data) d.name = none ∨
        ∃ v, lookupData (stripHousekeeping data) d.name = some v ∧
          convertValue d.typeHint v = .ok .vnull))
    (h2 : ∀ d ∈ meta, ∀ v, lookupData (stripHousekeeping data) d.name = some v →
       ∃ w, convertValue d.typeHint v = .ok w) :
    (∃ f, InsertRow rows meta data = .error (.required f)) ∧
    (∀ rows2 meta2 data2 out, InsertRow rows2 meta2 data2 = .ok out →
       ∃ clean, out = rows2 ++ [clean] ∧
         ∀ kv ∈ clean, ∃ d ∈ meta2, d.name = kv.1) := by
  constructor
  · obtain ⟨f, hf⟩ := prepare_required (stripHousekeeping data) meta h1 h2
    refine ⟨f, ?_⟩
    simp only [InsertRow, hf]
  · intro rows2 meta2 data2 out hok
    simp only [InsertRow] at hok
    rcases hp : prepareDataWithMeta (stripHousekeeping data2) meta2 true with e | clean
    · rw [hp] at hok; cases hok
    · rw [hp] at hok
      cases hok
      exact ⟨clean, rfl, prepare_keys (stripHousekeeping data2) meta2 true clean hp⟩

/-- Witness for C5: a single required `text` column, an empty payload —
the insert fails with the missing-required-field error; and a successful
insert of a payload with one undeclared key stores only the declared
column. -/
theorem claim5_witness :
    (∃ f, InsertRow [] [⟨"a", "", [], "text", false, ""⟩] [] =
       .error (.required f)) ∧
    (∃ clean, [[("a", GoValue.vstr "hello")]] = ([] : List (List (String × GoValue))) ++ [clean] ∧
       ∀ kv ∈ clean, ∃ d ∈ [(⟨"a", "", [], "text", false, ""⟩ : FieldDefinition)],
         d.name = kv.1) := by
  have h := claim5 [] [⟨"a", "", [], "text", false, ""⟩] []
    ⟨⟨"a", "", [], "text", false, ""⟩, by decide, by decide, Or.inl (by decide)⟩
    (by intro d hd v hv; cases hd with
      | head => cases hv
      | tail _ h2 => cases h2)
  exact ⟨h.1, h.2 [] [⟨"a", "", [], "text", false, ""⟩]
    [("a", GoValue.vstr "hello"), ("zzz", GoValue.vstr "ignored")]
    [[("a", GoValue.vstr "hello")]] (by decide)⟩

/-- **C6**.  When at least one header cell resolves to no column — by
caller alias first, then case-insensitive physical column name, then
case-insensitive declared label, the order `resolveHeader` encodes — and
allow-unknown is disabled, the whole import fails with an
unknown-columns error listing every unresolved (trimmed) header, and it
fails in `buildImportContext`, before any data row is touched: the
inserted count is 0 and the stored rows are unchanged. -/
theorem claim6 (rows : List (List (String × GoValue)))
    (metaDefs : List FieldDefinition) (fields : List String)
    (meta : List (String × List String)) (header : List String)
    (records : List (List String)) (aliases : List (String × String))
    (h : ∃ h0 ∈ header,
       headerUnresolved (normalizeAliases aliases) fields meta h0 = true) :
    ∃ us,
      ImportCSV rows metaDefs fields meta header records aliases false =
        (0, some (.ctx (.unknownColumns us)), rows) ∧
      us = header.filterMap (fun h0 =>
        if headerUnresolved (normalizeAliases aliases) fields meta h0 then
          some (goTrimSpace h0) else none) ∧
      us ≠ [] ∧
      (∀ h0 ∈ header,
         headerUnresolved (normalizeAliases aliases) fields meta h0 = true →
         goTrimSpace h0 ∈ us) := by
  obtain ⟨h0, hh0, hunres⟩ := h
  have hne : header ≠ [] := by
    intro hnil
    rw [hnil] at hh0
    cases hh0
  set us := header.filterMap (fun h1 =>
    if headerUnresolved (normalizeAliases aliases) fields meta h1 then
      some (goTrimSpace h1) else none) with hus
  have hmem : goTrimSpace h0 ∈ us := by
    rw [hus]
    exact List.mem_filterMap.mpr ⟨h0, hh0, by rw [if_pos hunres]⟩
  have husne : us ≠ [] := by
    intro hnil
    rw [hnil] at hmem
    cases hmem
  refine ⟨us, ?_, rfl, husne, ?_⟩
  · simp only [ImportCSV, buildImportContext, Bool.false_eq_true, if_false]
    rw [if_neg hne, ← hus, if_neg husne]
  · intro h1 hh1 hu
    rw [hus]
    exact List.mem_filterMap.mpr ⟨h1, hh1, by rw [if_pos hu]⟩

/-- Witness for C6: columns `name` (labelled `姓名`) and `age`; the
header `["姓名","age","bogus"]` resolves its first two cells but not
`bogus`, so the import fails up front listing `bogus`, inserting
nothing. -/
theorem claim6_witness :
    ∃ us,
      ImportCSV [] [⟨"name", "", ["姓名"], "text", true, ""⟩,
          ⟨"age", "", [], "integer", true, ""⟩]
        ["name", "age"] [("name", ["姓名"]), ("age", [])]
        ["姓名", "age", "bogus"] [["a", "1", "x"]] [] false =
      (0, some (.ctx (.unknownColumns us)), []) ∧
      us ≠ [] ∧ "bogus" ∈ us := by
  obtain ⟨us, h1, h2, h3, h4⟩ := claim6 []
    [⟨"name", "", ["姓名"], "text", true, ""⟩, ⟨"age", "", [], "integer", true, ""⟩]
    ["name", "age"] [("name", ["姓名"]), ("age", [])]
    ["姓名", "age", "bogus"] [["a", "1", "x"]] []
    ⟨"bogus", by decide, by decide⟩
  refine ⟨us, h1, h3, ?_⟩
  have := h4 "bogus" (by decide) (by decide)
  simpa using this

/-- **C10**.  Batch delete with an empty identity-key set returns
success immediately, executing no write statement and leaving the whole
store (every table, every row, the catalog) unchanged; drop-columns with
a column list none of whose names matches a physically present
non-housekeeping column of the table (including names of housekeeping
columns, catalog-only leftovers, or other tables' columns) likewise
returns success with no write statement and an unchanged store. -/
theorem claim10 (db : DB) (table : String) (cols : List String)
    (hcols : ∀ c ∈ cols, c ∉ ((lookupTable db table).map Table.columns).getD []) :
    DeleteRowsDB db table [] = (db, []) ∧
    DropColumnsDB db table cols = (db, []) := by
  constructor
  · rfl
  · by_cases hc : cols = []
    · subst hc; rfl
    · have hkeep : (((lookupTable db table).map Table.columns).getD []).filter
          (fun c => !cols.contains c) =
          ((lookupTable db table).map Table.columns).getD [] :=
        List.filter_eq_self.mpr (fun a ha => by
          by_cases hac : a ∈ cols
          · exact absurd ha (hcols a hac)
          · simp [hac])
      simp only [DropColumnsDB]
      rw [if_neg hc, hkeep, if_pos rfl]

/-- Witness for C10 on a one-table store: deleting `[]` and dropping
`["zzz", "id"]` (no physical non-housekeeping match) are both no-ops. -/
theorem claim10_witness :
    DeleteRowsDB ⟨[("t", ⟨["a"], [[("id", .vint 1), ("a", .vstr "x")]]⟩)],
        [⟨"t", ⟨"a", "", [], "text", true, ""⟩, 0⟩]⟩ "t" [] =
      (⟨[("t", ⟨["a"], [[("id", .vint 1), ("a", .vstr "x")]]⟩)],
        [⟨"t", ⟨"a", "", [], "text", true, ""⟩, 0⟩]⟩, []) ∧
    DropColumnsDB ⟨[("t", ⟨["a"], [[("id", .vint 1), ("a", .vstr "x")]]⟩)],
        [⟨"t", ⟨"a", "", [], "text", true, ""⟩, 0⟩]⟩ "t" ["zzz", "id"] =
      (⟨[("t", ⟨["a"], [[("id", .vint 1), ("a", .vstr "x")]]⟩)],
        [⟨"t", ⟨"a", "", [], "text", true, ""⟩, 0⟩]⟩, []) :=
  claim10 ⟨[("t", ⟨["a"], [[("id", .vint 1), ("a", .vstr "x")]]⟩)],
    [⟨"t", ⟨"a", "", [], "text", true, ""⟩, 0⟩]⟩ "t" ["zzz", "id"] (by decide)

/-- **C8**.  `Query` computes its total with the same filter predicate
as the paged row query: the total always equals the size of the
filtered population, and it is unchanged under any page / page-size
choice.  On the concrete 25-row table with defaults (order `id`
descending), `page=2, page_size=10` returns the 11th–20th rows of the
sorted order (ids 15..6) and total 25. -/
theorem claim8 (t : Table) (opts : QueryOptions) :
    (Query t opts).total = (t.rows.filter (rowMatches opts t.columns)).length ∧
    (∀ p ps, (Query t { opts with page := p, pageSize := ps }).total =
       (Query t opts).total) ∧
    (Query sampleTable25 ⟨"", [], 2, 10, "", false⟩).total = 25 ∧
    (Query sampleTable25 ⟨"", [], 2, 10, "", false⟩).rows.map idOf =
      [15, 14, 13, 12, 11, 10, 9, 8, 7, 6] := by
  refine ⟨rfl, fun p ps => rfl, ?_, ?_⟩ <;> decide

lemma length_insertSortedBy {α : Type} (le : α → α → Bool) (x : α) (l : List α) :
    (insertSortedBy le x l).length = l.length + 1 := by
  induction l with
  | nil => rfl
  | cons y ys ih =>
    simp only [insertSortedBy]
    cases h : le x y <;> simp [h, ih]

lemma length_sortListBy {α : Type} (le : α → α → Bool) (l : List α) :
    (sortListBy le l).length = l.length := by
  induction l with
  | nil => rfl
  | cons a as ih =>
    show (insertSortedBy le a (sortListBy le as)).length = as.length + 1
    rw [length_insertSortedBy, ih]

lemma mem_insertSortedBy {α : Type} (le : α → α → Bool) (x : α) (l : List α) (a : α) :
    a ∈ insertSortedBy le x l ↔ a = x ∨ a ∈ l := by
  induction l with
  | nil => simp [insertSortedBy]
  | cons y ys ih =>
    simp only [insertSortedBy]
    cases h : le x y <;> simp [List.mem_cons, ih] <;> tauto

lemma mem_sortListBy {α : Type} (le : α → α → Bool) (l : List α) (a : α) :
    a ∈ sortListBy le l ↔ a ∈ l := by
  induction l with
  | nil => simp [sortListBy]
  | cons b bs ih =>
    show a ∈ insertSortedBy le b (sortListBy le bs) ↔ _
    rw [mem_insertSortedBy, ih]
    simp [List.mem_cons]

lemma insertSortedBy_map {α β : Type} (f : α → β) (le : β → β → Bool)
    (le' : α → α → Bool) (x : α) :
    ∀ l : List α, (∀ b ∈ l, le (f x) (f b) = le' x b) →
      insertSortedBy le (f x) (l.map f) = (insertSortedBy le' x l).map f := by
  intro l
  induction l with
  | nil => intro _; rfl
  | cons y ys ih =>
    intro h
    have hy := h y (List.mem_cons_self y ys)
    simp only [List.map_cons, insertSortedBy, hy]
    cases h' : le' x y
    · simp only [Bool.false_eq_true, if_false, List.map_cons]
      rw [ih (fun b hb => h b (List.mem_cons_of_mem y hb))]
    · simp

lemma sortListBy_map {α β : Type} (f : α → β) (le : β → β → Bool)
    (le' : α → α → Bool) :
    ∀ l : List α, (∀ a ∈ l, ∀ b ∈ l, le (f a) (f b) = le' a b) →
      sortListBy le (l.map f) = (sortListBy le' l).map f := by
  intro l
  induction l with
  | nil => intro _; rfl
  | cons a as ih =>
    intro h
    show insertSortedBy le (f a) (sortListBy le (as.map f)) = _
    rw [ih (fun x hx y hy => h x (List.mem_cons_of_mem a hx) y (List.mem_cons_of_mem a hy))]
    exact insertSortedBy_map f le le' a (sortListBy le' as) (fun b hb =>
      h a (List.mem_cons_self a as) b
        (List.mem_cons_of_mem a ((mem_sortListBy le' as b).mp hb)))

lemma lookup_keyMap (ks : List String) (g : String → GoValue) (k : String) :
    lookupData (ks.map (fun c => (c, g c))) k =
      if k ∈ ks then some (g k) else none := by
  induction ks with
  | nil => simp [lookupData]
  | cons c cs ih =>
    by_cases hck : c = k
    · subst hck
      simp [lookupData, List.find?_cons]
    · simp only [lookupData, List.map_cons, List.find?_cons] at ih ⊢
      have : (decide (c = k)) = false := by simp [hck]
      rw [this]
      rw [ih]
      simp [List.mem_cons, Ne.symm hck]

lemma lookupData_filterKeys (p : String → Bool) (r : List (String × GoValue))
    (k : String) :
    lookupData (r.filter (fun kv => p kv.1)) k =
      if p k then lookupData r k else none := by
  induction r with
  | nil => simp [lookupData]
  | cons kv rest ih =>
    obtain ⟨k', v⟩ := kv
    by_cases hp : p k'
    · by_cases hkk : k' = k
      · subst hkk
        simp [lookupData, List.filter_cons, hp, List.find?_cons]
      · simp only [List.filter_cons]
        rw [if_pos (by simpa using hp)]
        simp only [lookupData, List.find?_cons] at ih ⊢
        have hd : (decide (k' = k)) = false := by simp [hkk]
        rw [hd, ih]
    · by_cases hkk : k' = k
      · subst hkk
        simp only [List.filter_cons]
        rw [if_neg (by simpa using hp), ih]
        simp [hp]
      · simp only [List.filter_cons]
        rw [if_neg (by simpa using hp), ih]
        simp only [lookupData, List.find?_cons]
        have hd : (decide (k' = k)) = false := by simp [hkk]
        rw [hd]

lemma rowMatches_trivial (cols : List String) (r : RowT) (p ps : ℤ)
    (sb : String) (d : Bool) :
    rowMatches ⟨"", [], p, ps, sb, d⟩ cols r = true := by
  simp [rowMatches]

lemma rowLe_trivial (cols : List String) (p ps : ℤ) (d : Bool) :
    rowLe ⟨"", [], p, ps, "", d⟩ cols = idDescLe := by
  funext a b
  simp [rowLe, idDescLe]

/-- `Query` under the all-selecting options: every row matches, the
total is the row count, and the returned page is the whole table sorted
by `id` descending with timestamps stripped. -/
lemma queryAll (t : Table) (n : ℤ) (hn : (t.rows.length : ℤ) ≤ n) :
    Query t (allOpts n) =
      ⟨(sortListBy idDescLe t.rows).map stripTimestamps, t.rows.length⟩ := by
  by_cases hps : n ≤ 0
  · have h0 : t.rows = [] := by
      have : t.rows.length = 0 := by omega
      exact List.length_eq_zero.mp this
    simp [Query, allOpts, h0, sortListBy]
  · have hfil : t.rows.filter (rowMatches ⟨"", [], 1, n, "", false⟩ t.columns) =
        t.rows :=
      List.filter_eq_self.mpr (fun r _ => rowMatches_trivial t.columns r 1 n "" false)
    have hlen : (sortListBy idDescLe t.rows).length ≤ n.toNat := by
      rw [length_sortListBy]
      omega
    simp only [Query, allOpts]
    rw [if_neg hps]
    norm_num
    rw [hfil, rowLe_trivial]
    refine ⟨List.take_of_length_le ?_, fun a _ => rowMatches_trivial t.columns a 1 n "" false⟩
    simpa [length_sortListBy] using hlen

lemma goodRow_id (t : Table) (r : RowT) (h : goodRow t r = true) :
    ∃ i, lookupData r "id" = some (.vint i) := by
  simp only [goodRow, Bool.and_eq_true] at h
  obtain ⟨⟨⟨hid, _⟩, _⟩, _⟩ := h
  rcases hl : lookupData r "id" with _ | w
  · rw [hl] at hid
    cases hid
  · rw [hl] at hid
    cases w with
    | vint i => exact ⟨i, rfl⟩
    | vnull => cases hid
    | vfloat q => cases hid
    | vbool b => cases hid
    | vstr s => cases hid

lemma goodRow_col (t : Table) (r : RowT) (c : String) (hc : c ∈ t.columns)
    (h : goodRow t r = true) : (lookupData r c).isSome := by
  simp only [goodRow, Bool.and_eq_true] at h
  obtain ⟨⟨⟨_, hall⟩, _⟩, _⟩ := h
  exact List.all_eq_true.mp hall c hc

lemma lookup_keyMap_append (ks : List String) (g : String → GoValue)
    (rest : List (String × GoValue)) (k : String) :
    lookupData (ks.map (fun c => (c, g c)) ++ rest) k =
      if k ∈ ks then some (g k) else lookupData rest k := by
  induction ks with
  | nil => simp
  | cons c cs ih =>
    by_cases hck : c = k
    · subst hck
      simp [lookupData, List.find?_cons]
    · simp only [List.map_cons, List.cons_append, lookupData, List.find?_cons] at ih ⊢
      have hd : (decide (c = k)) = false := by simp [hck]
      rw [hd, ih]
      simp [List.mem_cons, Ne.symm hck]

lemma lookupData_cons_self (k : String) (v : GoValue)
    (l : List (String × GoValue)) : lookupData ((k, v) :: l) k = some v := by
  unfold lookupData
  rw [List.find?_cons_of_pos _ (by simp)]
  rfl

lemma lookupData_cons_ne (k' : String) (v : GoValue)
    (l : List (String × GoValue)) (k : String) (h : k' ≠ k) :
    lookupData ((k', v) :: l) k = lookupData l k := by
  unfold lookupData
  rw [List.find?_cons_of_neg _ (by simpa using h)]

lemma lookup_rebuildRow (keep : List String) (r : RowT) (k : String) :
    lookupData (rebuildRow keep r) k =
      if k = "id" then some (cellOf r "id")
      else if k ∈ keep then some (textAffinity (cellOf r k))
      else if k = "created_at" then some (cellOf r "created_at")
      else if k = "updated_at" then some (cellOf r "updated_at")
      else none := by
  by_cases hk : k = "id"
  · subst hk
    rw [if_pos rfl]
    simp only [rebuildRow]
    exact lookupData_cons_self _ _ _
  · rw [if_neg hk]
    simp only [rebuildRow]
    rw [lookupData_cons_ne _ _ _ _ (Ne.symm hk),
      lookup_keyMap_append keep (fun c => textAffinity (cellOf r c)) _ k]
    by_cases hkk : k ∈ keep
    · rw [if_pos hkk, if_pos hkk]
    · rw [if_neg hkk, if_neg hkk]
      by_cases hc1 : k = "created_at"
      · subst hc1
        rw [if_pos rfl]
        exact lookupData_cons_self _ _ _
      · rw [if_neg hc1, lookupData_cons_ne _ _ _ _ (Ne.symm hc1)]
        by_cases hc2 : k = "updated_at"
        · subst hc2
          rw [if_pos rfl]
          exact lookupData_cons_self _ _ _
        · rw [if_neg hc2, lookupData_cons_ne _ _ _ _ (Ne.symm hc2)]
          simp [lookupData]

lemma lookup_stripTimestamps (r : RowT) (k : String)
    (hcr : k ≠ "created_at") (hup : k ≠ "updated_at") :
    lookupData (stripTimestamps r) k = lookupData r k := by
  rw [stripTimestamps,
    lookupData_filterKeys (fun k => decide (k ≠ "created_at") && decide (k ≠ "updated_at")) r k,
    if_pos (by simp [hcr, hup])]

lemma idOf_strip_rebuild (keep : List String) (r : RowT) (i : ℤ)
    (h : lookupData r "id" = some (.vint i)) :
    idOf (stripTimestamps (rebuildRow keep r)) = idOf (stripTimestamps r) := by
  rw [idOf, lookup_stripTimestamps _ _ (by decide) (by decide),
    lookup_rebuildRow, if_pos rfl]
  rw [idOf, lookup_stripTimestamps _ _ (by decide) (by decide), h]
  simp [cellOf, h]

/-- **C7 counterexample**.  The rebuild re-types surviving columns as
TEXT, so a numeric surviving value is converted to text by the
`INSERT … SELECT`: after dropping `b`, the surviving column `a`'s value
`7` comes back as the string `"7"`, not unchanged as the claim states. -/
theorem claim7_cex :
    (Query (dropColumnsTable ⟨["a", "b"],
        [[("id", .vint 1), ("a", .vint 7), ("b", .vstr "y"),
          ("created_at", .vstr "t1"), ("updated_at", .vstr "t1")]]⟩ ["b"])
      (allOpts 1)).rows.map (fun r => lookupData r "a") = [some (.vstr "7")] ∧
    (Query ⟨["a", "b"],
        [[("id", .vint 1), ("a", .vint 7), ("b", .vstr "y"),
          ("created_at", .vstr "t1"), ("updated_at", .vstr "t1")]]⟩
      (allOpts 1)).rows.map (fun r => lookupData r "a") = [some (.vint 7)] := by
  constructor <;> decide

/-- **C7 (amended)**.  Dropping a non-key column preserves the rows of
all surviving columns *up to SQLite's TEXT-affinity conversion*: for a
well-formed table, after `DropColumns [c]` a query that selects
everything returns the same number of rows, in the same order with the
same identity keys, with the dropped column absent from every returned
row, and with every surviving column's value equal to the original
value converted to the TEXT storage class (null and text values
verbatim, numeric values as their text rendering) — because the rebuild
re-creates every surviving column as TEXT. -/
theorem claim7 (t : Table) (c : String) (n : ℤ)
    (hwf : wellFormed t) (hc : c ∈ t.columns) (hn : (t.rows.length : ℤ) ≤ n) :
    (Query (dropColumnsTable t [c]) (allOpts n)).total = t.rows.length ∧
    (Query (dropColumnsTable t [c]) (allOpts n)).rows.length = t.rows.length ∧
    (Query (dropColumnsTable t [c]) (allOpts n)).rows.map idOf =
      (Query t (allOpts n)).rows.map idOf ∧
    (∀ r ∈ (Query (dropColumnsTable t [c]) (allOpts n)).rows,
       lookupData r c = none) ∧
    (∀ c' ∈ t.columns, c' ≠ c →
       (Query (dropColumnsTable t [c]) (allOpts n)).rows.map
         (fun r => lookupData r c') =
       (Query t (allOpts n)).rows.map
         (fun r => (lookupData r c').map textAffinity)) := by
  obtain ⟨hnd, hid, hcr, hup, hrows⟩ := hwf
  have hccr : c ≠ "created_at" := fun he => hcr (he ▸ hc)
  have hcup : c ≠ "updated_at" := fun he => hup (he ▸ hc)
  have hcid : c ≠ "id" := fun he => hid (he ▸ hc)
  set keep := t.columns.filter (fun x => !([c].contains x)) with hkeepdef
  have hkeepLen : ¬ keep.length = t.columns.length := by
    intro he
    have hall := List.filter_length_eq_length.mp he c hc
    simp at hall
  have ht' : dropColumnsTable t [c] = ⟨keep, t.rows.map (rebuildRow keep)⟩ := by
    simp only [dropColumnsTable, ← hkeepdef]
    rw [if_neg hkeepLen]
  have hlen' : (((dropColumnsTable t [c]).rows.length : ℤ)) ≤ n := by
    rw [ht']
    simpa using hn
  have hq' := queryAll (dropColumnsTable t [c]) n hlen'
  have hq0 := queryAll t n hn
  rw [ht'] at hq'
  simp only [List.length_map] at hq'
  rw [ht']
  have hsort : sortListBy idDescLe (t.rows.map (rebuildRow keep)) =
      (sortListBy idDescLe t.rows).map (rebuildRow keep) := by
    apply sortListBy_map
    intro a ha b hb
    obtain ⟨ia, hia⟩ := goodRow_id t a (hrows a ha)
    obtain ⟨ib, hib⟩ := goodRow_id t b (hrows b hb)
    have hfa : idOf (rebuildRow keep a) = idOf a := by
      rw [idOf, lookup_rebuildRow, if_pos rfl, idOf, hia]
      simp [cellOf, hia]
    have hfb : idOf (rebuildRow keep b) = idOf b := by
      rw [idOf, lookup_rebuildRow, if_pos rfl, idOf, hib]
      simp [cellOf, hib]
    simp [idDescLe, hfa, hfb]
  rw [hsort] at hq'
  have hmem : ∀ r ∈ sortListBy idDescLe t.rows, r ∈ t.rows :=
    fun r hr => (mem_sortListBy idDescLe t.rows r).mp hr
  refine ⟨?_, ?_, ?_, ?_, ?_⟩
  · rw [hq']
  · rw [hq']
    simp [length_sortListBy]
  · rw [hq', hq0]
    simp only [List.map_map]
    apply List.map_congr_left
    intro r hr
    obtain ⟨i, hi⟩ := goodRow_id t r (hrows r (hmem r hr))
    exact idOf_strip_rebuild keep r i hi
  · intro r' hr'
    rw [hq'] at hr'
    simp only [List.map_map, List.mem_map] at hr'
    obtain ⟨r, hr, rfl⟩ := hr'
    have hckeep : c ∉ keep := by
      intro hck
      rw [hkeepdef] at hck
      have := (List.mem_filter.mp hck).2
      simp at this
    simp only [Function.comp_apply]
    rw [lookup_stripTimestamps _ _ hccr hcup, lookup_rebuildRow,
      if_neg hcid, if_neg hckeep, if_neg hccr, if_neg hcup]
  · intro c' hc' hne
    have hc'cr : c' ≠ "created_at" := fun he => hcr (he ▸ hc')
    have hc'up : c' ≠ "updated_at" := fun he => hup (he ▸ hc')
    have hc'id : c' ≠ "id" := fun he => hid (he ▸ hc')
    have hc'keep : c' ∈ keep := by
      rw [hkeepdef]
      exact List.mem_filter.mpr ⟨hc', by simp [hne]⟩
    rw [hq', hq0]
    simp only [List.map_map]
    apply List.map_congr_left
    intro r hr
    have hgood := hrows r (hmem r hr)
    have hsome := goodRow_col t r c' hc' hgood
    obtain ⟨w, hw⟩ := Option.isSome_iff_exists.mp hsome
    simp only [Function.comp_apply]
    rw [lookup_stripTimestamps _ _ hc'cr hc'up, lookup_rebuildRow,
      if_neg hc'id, if_pos hc'keep, lookup_stripTimestamps _ _ hc'cr hc'up, hw]
    simp [cellOf, hw]

/-- Witness for C7 on a concrete two-column, two-row table: dropping
`b` keeps both rows, ids and the `a` values, and removes `b`. -/
theorem claim7_witness :
    (Query (dropColumnsTable ⟨["a", "b"],
        [[("id", .vint 1), ("a", .vstr "x"), ("b", .vstr "y"),
          ("created_at", .vstr "t1"), ("updated_at", .vstr "t1")],
         [("id", .vint 2), ("a", .vstr "z"), ("b", .vstr "w"),
          ("created_at", .vstr "t2"), ("updated_at", .vstr "t2")]]⟩ ["b"])
      (allOpts 2)).total = 2 ∧
    (Query (dropColumnsTable ⟨["a", "b"],
        [[("id", .vint 1), ("a", .vstr "x"), ("b", .vstr "y"),
          ("created_at", .vstr "t1"), ("updated_at", .vstr "t1")],
         [("id", .vint 2), ("a", .vstr "z"), ("b", .vstr "w"),
          ("created_at", .vstr "t2"), ("updated_at", .vstr "t2")]]⟩ ["b"])
      (allOpts 2)).rows.map idOf =
    (Query ⟨["a", "b"],
        [[("id", .vint 1), ("a", .vstr "x"), ("b", .vstr "y"),
          ("created_at", .vstr "t1"), ("updated_at", .vstr "t1")],
         [("id", .vint 2), ("a", .vstr "z"), ("b", .vstr "w"),
          ("created_at", .vstr "t2"), ("updated_at", .vstr "t2")]]⟩
      (allOpts 2)).rows.map idOf := by
  have h := claim7 ⟨["a", "b"],
    [[("id", .vint 1), ("a", .vstr "x"), ("b", .vstr "y"),
      ("created_at", .vstr "t1"), ("updated_at", .vstr "t1")],
     [("id", .vint 2), ("a", .vstr "z"), ("b", .vstr "w"),
      ("created_at", .vstr "t2"), ("updated_at", .vstr "t2")]]⟩ "b" 2
    (by constructor
        · decide
        · refine ⟨by decide, by decide, by decide, ?_⟩
          decide)
    (by decide) (by decide)
  exact ⟨h.1, h.2.2.1⟩

end UveitisDB
